import Mathlib

/-!
Verification of the `metricslogging` metrics emission library
(`metricslogging/metricslogging.py`): name-part flattening and joining,
host-token derivation, counter sampling and validation, statsd wire
sanitization, the nested configuration store, and the timer
context-decorator.  Each definition is a shallow embedding of the
corresponding Python function.
-/

namespace Metricslogging

/-- Python values as stored in a `NestedConfig` mapping.  `PyVal.none` is
Python's `None`. -/
inductive PyVal where
  | none : PyVal
  | bool (b : Bool) : PyVal
  | str (s : String) : PyVal
  | int (n : Int) : PyVal
  | list (xs : List String) : PyVal
deriving DecidableEq, Repr

/-- A metric name part as accepted by `_to_list`: Python `None`, a bare
string, a list of strings, or a tuple of strings. -/
inductive NamePart where
  | none : NamePart
  | str (s : String) : NamePart
  | list (xs : List String) : NamePart
  | tuple (xs : List String) : NamePart
deriving DecidableEq, Repr

/-- `_to_list(parts)`: `None` becomes `[]`, a list is returned unchanged, a
string becomes a singleton list, a tuple becomes the corresponding list. -/
def to_list : NamePart → List String
  | NamePart.none => []
  | NamePart.str s => [s]
  | NamePart.list xs => xs
  | NamePart.tuple xs => xs

/-- The filter predicate of `_list_chain`: keep `s` when
`not skip_empty or s != ""`. -/
def keepTok (skip_empty : Bool) (s : String) : Bool :=
  !skip_empty || (s != "")

/-- `_list_chain(skip_empty, *parts)`: flatten every part with `_to_list`,
concatenate in order, and filter with `keepTok`. -/
def list_chain (skip_empty : Bool) (parts : List NamePart) : List String :=
  ((parts.map to_list).flatten).filter (keepTok skip_empty)

/-- `_list_join(delimiter, skip_empty, *parts)`: join the chained tokens
with the delimiter. -/
def list_join (delimiter : String) (skip_empty : Bool)
    (parts : List NamePart) : String :=
  String.intercalate delimiter (list_chain skip_empty parts)

/-- Python `s.split(sep)` for a one-character separator: split on every
occurrence of the separator, keeping empty segments (so `""` splits to
`[""]`). -/
def split_on_char (sep : Char) (s : String) : List String :=
  (s.data.foldr
    (fun c acc =>
      match acc with
      | [] => [[c]]
      | g :: gs => if c = sep then [] :: g :: gs else (c :: g) :: gs)
    [[]]).map String.mk

/-- `_get_host_parts(host)`: a string host is split on `'.'`; any other
shape is passed through `_to_list`. -/
def get_host_parts : NamePart → List String
  | NamePart.str s => split_on_char '.' s
  | p => to_list p

/-- `StatsdMetricsLogger._format_name(global_prefix, host, prefix, name)`:
`_list_join(delimiter, True, global_prefix, host, prefix, name)`.  The
arguments `gp`, `host`, `pfx`, `nm` are the four name parts in the fixed
order of the source. -/
def statsd_format_name (delimiter : String)
    (gp host pfx nm : NamePart) : String :=
  list_join delimiter true [gp, host, pfx, nm]

/-- The host token list computed by `MetricsLogger.format_name`: empty when
host-prepending is disabled, otherwise `_get_host_parts` of the configured
host, reversed when `prepend_host_reverse` is set. -/
def host_tokens (prependHost prependHostReverse : Bool)
    (host : NamePart) : List String :=
  let h := if prependHost then get_host_parts host else []
  if prependHostReverse then h.reverse else h

/-- `MetricsLogger.format_name(name)` for a statsd logger, parametrised by
the resolved configuration values (global p., host settings, logger p.,
delimiter): computes the host tokens and delegates to
`StatsdMetricsLogger._format_name`. -/
def format_name (prependHost prependHostReverse : Bool) (host : NamePart)
    (gp pfx : NamePart) (delimiter : String) (nm : NamePart) : String :=
  statsd_format_name delimiter gp
    (NamePart.list (host_tokens prependHost prependHostReverse host)) pfx nm

/-- Outcome of one `MetricsLogger.counter` call. -/
inductive CounterResult where
  | invalidArgument : CounterResult
  | sent (sample_rate : Option ℚ) : CounterResult
  | dropped : CounterResult
deriving DecidableEq, Repr

/-- One `counter` call together with which effects it performed:
whether `random.random()` was drawn, whether `format_name` ran, and
whether the backend `_counter` was invoked. -/
structure CounterRun where
  result : CounterResult
  drewRandom : Bool
  formattedName : Bool
  backendCalled : Bool
deriving DecidableEq, Repr

/-- `MetricsLogger.counter(name, value, sample_rate)` with the per-call
uniform draw `r` made explicit.  Order as in the source: validate
`sample_rate` first (raising `ValueError` when it is not `None` and lies
outside `[0, 1]`), then send when `sample_rate is None` (no draw) or when
the draw satisfies `r < sample_rate`; otherwise fall through silently. -/
def counter (sample_rate : Option ℚ) (r : ℚ) : CounterRun :=
  match sample_rate with
  | Option.none =>
      ⟨CounterResult.sent Option.none, false, true, true⟩
  | Option.some sr =>
      if sr < 0 ∨ sr > 1 then
        ⟨CounterResult.invalidArgument, false, false, false⟩
      else if r < sr then
        ⟨CounterResult.sent (Option.some sr), true, true, true⟩
      else
        ⟨CounterResult.dropped, true, false, false⟩

/-- The per-character replacement of `StatsdMetricsLogger._sanitize`:
`string.maketrans(':|@\n', '----')` maps each prohibited character to
`'-'` and leaves every other character unchanged. -/
def sanitizeChar (c : Char) : Char :=
  if c = ':' ∨ c = '|' ∨ c = '@' ∨ c = '\n' then '-' else c

/-- `StatsdMetricsLogger._sanitize(s)`: translate every character. -/
def sanitize (s : String) : String :=
  String.mk (s.data.map sanitizeChar)

def GAUGE_TYPE : String := "g"
def COUNTER_TYPE : String := "c"
def TIMER_TYPE : String := "ms"

/-- `StatsdMetricsLogger._send(name, value, type, sample_rate)`: the wire
line, with every field independently sanitized (values arrive as their
`str()` rendering). -/
def send (nm v ty : String) (sample_rate : Option String) : String :=
  match sample_rate with
  | Option.none =>
      sanitize nm ++ ":" ++ sanitize v ++ "|" ++ sanitize ty
  | Option.some sr =>
      sanitize nm ++ ":" ++ sanitize v ++ "|" ++ sanitize ty
        ++ "@" ++ sanitize sr

/-- `StatsdMetricsLogger._gauge`. -/
def gauge_line (nm v : String) : String :=
  send nm v GAUGE_TYPE Option.none

/-- `StatsdMetricsLogger._counter`. -/
def counter_line (nm v : String) (sr : Option String) : String :=
  send nm v COUNTER_TYPE sr

/-- `StatsdMetricsLogger._timer`. -/
def timer_line (nm v : String) : String :=
  send nm v TIMER_TYPE Option.none

/-- A `NestedConfig` node: a local mapping plus an optional parent
(`root` models `parent=None`, `child` a node constructed with a parent). -/
inductive NestedConfig where
  | root (config : List (String × PyVal)) : NestedConfig
  | child (config : List (String × PyVal)) (parent : NestedConfig) : NestedConfig
deriving DecidableEq, Repr

/-- Python dict lookup `name in d` / `d[name]`. -/
def dict_lookup : List (String × PyVal) → String → Option PyVal
  | [], _ => Option.none
  | (k, v) :: rest, nm => if k = nm then Option.some v else dict_lookup rest nm

/-- Python dict assignment `d[name] = value`: replace an existing binding
or append a new one. -/
def dict_set : List (String × PyVal) → String → PyVal → List (String × PyVal)
  | [], nm, v => [(nm, v)]
  | (k, w) :: rest, nm, v =>
      if k = nm then (k, v) :: rest else (k, w) :: dict_set rest nm v

/-- The node's own local mapping. -/
def local_config : NestedConfig → List (String × PyVal)
  | NestedConfig.root cfg => cfg
  | NestedConfig.child cfg _ => cfg

/-- `NestedConfig.set_config(name, value)`: store in the local mapping. -/
def set_config : NestedConfig → String → PyVal → NestedConfig
  | NestedConfig.root cfg, nm, v => NestedConfig.root (dict_set cfg nm v)
  | NestedConfig.child cfg par, nm, v => NestedConfig.child (dict_set cfg nm v) par

/-- `NestedConfig.get_config(name)`: local lookup first, then delegate to
the parent, and return Python `None` when there is no parent and no local
entry. -/
def get_config : NestedConfig → String → PyVal
  | NestedConfig.root cfg, nm =>
      match dict_lookup cfg nm with
      | Option.some v => v
      | Option.none => PyVal.none
  | NestedConfig.child cfg par, nm =>
      match dict_lookup cfg nm with
      | Option.some v => v
      | Option.none => get_config par nm

/-- `NestedConfig.add_config(name, default, override)` as its effect on the
node: when `override` is false the default is stored immediately via
`set_config`; when `override` is true nothing is written (the returned
setter and getter are modelled by `set_config` and `get_config`). -/
def add_config (node : NestedConfig) (nm : String) (default : PyVal)
    (override : Bool) : NestedConfig :=
  if override then node else set_config node nm default

/-- `TimerContextDecorator` state after `__enter__`: the logger-bound
metric name and the recorded start time (seconds). -/
structure TimerContextDecorator where
  name : String
  start_time : ℚ
deriving DecidableEq, Repr

/-- `TimerContextDecorator.__enter__` at wall-clock time `t`. -/
def timer_enter (nm : String) (t : ℚ) : TimerContextDecorator :=
  ⟨nm, t⟩

/-- `TimerContextDecorator.__exit__(*exc)` at wall-clock time `t`: the list
of timer metrics emitted, `(name, (t - start_time) * 1000)`; the exception
information `exc` is ignored. -/
def timer_exit (cd : TimerContextDecorator) (t : ℚ)
    (_exc : Option String) : List (String × ℚ) :=
  [(cd.name, (t - cd.start_time) * 1000)]

/-! ### Helper lemmas -/

theorem list_chain_append (se : Bool) (xs ys : List NamePart) :
    list_chain se (xs ++ ys) = list_chain se xs ++ list_chain se ys := by
  simp [list_chain]

theorem list_chain_cons (se : Bool) (p : NamePart) (ys : List NamePart) :
    list_chain se (p :: ys)
      = (to_list p).filter (keepTok se) ++ list_chain se ys := by
  simp [list_chain]

theorem dict_lookup_set_self (cfg : List (String × PyVal)) (nm : String)
    (v : PyVal) : dict_lookup (dict_set cfg nm v) nm = Option.some v := by
  induction cfg with
  | nil => simp [dict_set, dict_lookup]
  | cons kv rest ih =>
      obtain ⟨k, w⟩ := kv
      by_cases h : k = nm
      · simp [dict_set, dict_lookup, h]
      · simp [dict_set, dict_lookup, h, ih]

theorem dict_lookup_set_other (cfg : List (String × PyVal)) (nm n : String)
    (v : PyVal) (h : n ≠ nm) :
    dict_lookup (dict_set cfg nm v) n = dict_lookup cfg n := by
  induction cfg with
  | nil => simp [dict_set, dict_lookup, Ne.symm h]
  | cons kv rest ih =>
      obtain ⟨k, w⟩ := kv
      by_cases hk : k = nm
      · subst hk
        simp [dict_set, dict_lookup, Ne.symm h]
      · simp [dict_set, dict_lookup, hk, ih]

/-! ### Claim theorems -/

/-- C1: the statsd naming hook flattens each of the four NamePart inputs to
an ordered token sequence, concatenates them in order (global, host,
logger, call-site), drops tokens equal to the empty string, and joins the
rest with the configured delimiter; concretely, global "globalprefix",
logger "testprefix", call-site "metric", host-prepending disabled and
delimiter "." format to "globalprefix.testprefix.metric". -/
theorem statsd_name_flatten_filter_join (delimiter : String)
    (gp host pfx nm : NamePart) :
    statsd_format_name delimiter gp host pfx nm
      = String.intercalate delimiter
          ((to_list gp ++ to_list host ++ to_list pfx ++ to_list nm).filter
            (fun s => s != ""))
    ∧ format_name false false (NamePart.str "host.example.com")
        (NamePart.str "globalprefix") (NamePart.str "testprefix") "."
        (NamePart.str "metric")
      = "globalprefix.testprefix.metric" := by
  constructor
  · have hk : keepTok true = fun s => s != "" := by
      funext s
      simp [keepTok]
    simp [statsd_format_name, list_join, list_chain, hk]
  · rfl

/-- C2: in any formatting slot, a bare string and the singleton list are
interchangeable, and an empty list, an empty string, or an absent value
each contribute nothing — the output equals that of omitting the slot;
the statsd hook is exactly the join over the four slots. -/
theorem slot_scalar_list_absent_equiv (delimiter : String)
    (xs ys : List NamePart) (a : String) :
    (∀ g h p n, statsd_format_name delimiter g h p n
        = list_join delimiter true [g, h, p, n])
    ∧ list_join delimiter true (xs ++ NamePart.str a :: ys)
        = list_join delimiter true (xs ++ NamePart.list [a] :: ys)
    ∧ list_join delimiter true (xs ++ NamePart.list [] :: ys)
        = list_join delimiter true (xs ++ ys)
    ∧ list_join delimiter true (xs ++ NamePart.str "" :: ys)
        = list_join delimiter true (xs ++ ys)
    ∧ list_join delimiter true (xs ++ NamePart.none :: ys)
        = list_join delimiter true (xs ++ ys) := by
  have hemp : ∀ p : NamePart, (to_list p).filter (keepTok true) = [] →
      ∀ ws : List NamePart,
        list_chain true (ws ++ p :: ys) = list_chain true (ws ++ ys) := by
    intro p hp ws
    rw [list_chain_append, list_chain_cons, hp, list_chain_append]
    simp
  refine ⟨fun g h p n => rfl, ?_, ?_, ?_, ?_⟩
  · unfold list_join
    rw [list_chain_append, list_chain_cons, list_chain_append, list_chain_cons]
    rfl
  · unfold list_join
    rw [hemp (NamePart.list []) (by decide) xs]
  · unfold list_join
    rw [hemp (NamePart.str "") (by decide) xs]
  · unfold list_join
    rw [hemp NamePart.none (by decide) xs]

/-- C3: with resolved host "host.example.com" the host tokens are obtained
by splitting on '.', giving ["host","example","com"], reversed to
["com","example","host"] when prependHostReverse is set; with
host-prepending disabled the host contribution is empty; a list-shaped
host is passed through unchanged; and format_name passes exactly these
tokens to the naming hook. -/
theorem host_tokens_derivation :
    host_tokens true false (NamePart.str "host.example.com")
      = ["host", "example", "com"]
    ∧ host_tokens true true (NamePart.str "host.example.com")
      = ["com", "example", "host"]
    ∧ (∀ rev h, host_tokens false rev h = [])
    ∧ (∀ ss, get_host_parts (NamePart.list ss) = ss)
    ∧ (∀ ph rev host gp pfx delimiter nm,
        format_name ph rev host gp pfx delimiter nm
          = statsd_format_name delimiter gp
              (NamePart.list (host_tokens ph rev host)) pfx nm) := by
  refine ⟨by decide, by decide, ?_, fun ss => rfl,
    fun _ _ _ _ _ _ _ => rfl⟩
  intro rev h
  cases rev <;> simp [host_tokens]

/-- C4: with a valid sample_rate and draw r in [0,1): a None rate always
forwards with no annotation and no draw; a numeric rate forwards (with
the annotation) iff r < rate, so rate 0 never forwards and rate 1 always
forwards; a skipped call is silently dropped. -/
theorem counter_sampling_gate (sample_rate : Option ℚ) (r : ℚ)
    (hr0 : 0 ≤ r) (hr1 : r < 1)
    (hvalid : ∀ x, sample_rate = Option.some x → 0 ≤ x ∧ x ≤ 1) :
    (sample_rate = Option.none →
       counter sample_rate r
         = ⟨CounterResult.sent Option.none, false, true, true⟩)
    ∧ (∀ x, sample_rate = Option.some x →
        (((counter sample_rate r).backendCalled = true) ↔ r < x)
        ∧ (r < x → counter sample_rate r
             = ⟨CounterResult.sent (Option.some x), true, true, true⟩)
        ∧ (¬ r < x → counter sample_rate r
             = ⟨CounterResult.dropped, true, false, false⟩))
    ∧ (sample_rate = Option.some 0 →
        (counter sample_rate r).backendCalled = false)
    ∧ (sample_rate = Option.some 1 →
        (counter sample_rate r).backendCalled = true) := by
  refine ⟨fun hnone => by simp [hnone, counter], fun x hx => ?_,
    fun h0 => ?_, fun h1 => ?_⟩
  · obtain ⟨hx0, hx1⟩ := hvalid x hx
    subst hx
    have hno : ¬ (x < 0 ∨ x > 1) := by rintro (hh | hh) <;> linarith
    by_cases hrx : r < x <;> simp [counter, hno, hrx]
  · subst h0
    have h10 : ¬ ((1 : ℚ) < 0) := by norm_num
    have hnr : ¬ r < 0 := not_lt.mpr hr0
    simp [counter, h10, hnr]
  · subst h1
    have h10 : ¬ ((1 : ℚ) < 0) := by norm_num
    simp [counter, h10, hr1]

/-- Witness for C4 at sample_rate 1 and draw 1/2. -/
theorem counter_sampling_gate_witness :
    counter (Option.some 1) (1 / 2)
      = ⟨CounterResult.sent (Option.some 1), true, true, true⟩ := by
  have h := counter_sampling_gate (Option.some 1) (1 / 2) (by norm_num)
    (by norm_num) (fun x hx => by cases hx; norm_num)
  exact (h.2.1 1 rfl).2.1 (by norm_num)

/-- C5: counter fails with ValueError exactly when sample_rate is neither
None nor within [0,1], and on failure no random draw, no name formatting
and no backend call happen. -/
theorem counter_invalid_argument (sample_rate : Option ℚ) (r : ℚ) :
    (((counter sample_rate r).result = CounterResult.invalidArgument)
       ↔ ∃ x, sample_rate = Option.some x ∧ (x < 0 ∨ 1 < x))
    ∧ (∀ x, sample_rate = Option.some x → (x < 0 ∨ 1 < x) →
        counter sample_rate r
          = ⟨CounterResult.invalidArgument, false, false, false⟩) := by
  constructor
  · cases sample_rate with
    | none => simp [counter]
    | some x =>
        by_cases hx : x < 0 ∨ x > 1
        · simp [counter, hx]
        · by_cases hr : r < x <;> simp [counter, hx, hr]
  · rintro x rfl hx
    simp [counter, hx]

/-- Witness for C5 at sample_rate 2. -/
theorem counter_invalid_argument_witness :
    counter (Option.some 2) (1 / 2)
      = ⟨CounterResult.invalidArgument, false, false, false⟩ :=
  (counter_invalid_argument (Option.some 2) (1 / 2)).2 2 rfl
    (Or.inr (by norm_num))

/-- C6: the statsd wire line is name:value|type, with @sample_rate appended
when present; the type tags are g, c and ms; every field is independently
sanitized so it can never contain ':', '|' or '@'; and the name
"m|e@t:ric" with value 2 and type "type" serializes to
"m-e-t-ric:2|type". -/
theorem statsd_sanitized_wire_line :
    (∀ nm v ty, send nm v ty Option.none
       = sanitize nm ++ ":" ++ sanitize v ++ "|" ++ sanitize ty)
    ∧ (∀ nm v ty sr, send nm v ty (Option.some sr)
       = sanitize nm ++ ":" ++ sanitize v ++ "|" ++ sanitize ty
           ++ "@" ++ sanitize sr)
    ∧ GAUGE_TYPE = "g" ∧ COUNTER_TYPE = "c" ∧ TIMER_TYPE = "ms"
    ∧ send "m|e@t:ric" (toString (2 : Int)) "type" Option.none
        = "m-e-t-ric:2|type"
    ∧ (∀ s : String, ∀ c ∈ (sanitize s).data,
        c ≠ ':' ∧ c ≠ '|' ∧ c ≠ '@') := by
  refine ⟨fun _ _ _ => rfl, fun _ _ _ _ => rfl, rfl, rfl, rfl, by decide, ?_⟩
  intro s c hc
  simp [sanitize] at hc
  obtain ⟨c', _, rfl⟩ := hc
  unfold sanitizeChar
  split
  · exact ⟨by decide, by decide, by decide⟩
  · rename_i hcond
    push_neg at hcond
    exact ⟨hcond.1, hcond.2.1, hcond.2.2.1⟩

/-- Witness for C6: the concrete sanitized line. -/
theorem statsd_sanitized_wire_line_witness :
    send "m|e@t:ric" (toString (2 : Int)) "type" Option.none
      = "m-e-t-ric:2|type" :=
  statsd_sanitized_wire_line.2.2.2.2.2.1

/-- C7: after set_config on any node, get_config on that node returns the
stored value for every value (including None, false and ""), whatever the
parent chain stores. -/
theorem local_entry_shadows_parent (node : NestedConfig) (nm : String)
    (v : PyVal) : get_config (set_config node nm v) nm = v := by
  cases node <;> simp [set_config, get_config, dict_lookup_set_self]

/-- C8 counterexample: on a parentless node, storing Python None yields the
very same get_config result as never setting the name — the "unset"
sentinel is None itself, so it is not distinguishable from a stored
null. -/
theorem unset_sentinel_counterexample :
    get_config (set_config (NestedConfig.root []) "x" PyVal.none) "x"
      = get_config (NestedConfig.root []) "x"
    ∧ get_config (NestedConfig.root []) "x" = PyVal.none :=
  ⟨rfl, rfl⟩

/-- C8 amended: on a parentless node, get_config of a name with no local
entry returns None (the unset sentinel); a stored false or stored empty
string is distinguishable from it, but a stored None is not — it reads
back exactly as the sentinel. -/
theorem unset_sentinel_amended (cfg : List (String × PyVal)) (nm : String)
    (h : dict_lookup cfg nm = Option.none) :
    get_config (NestedConfig.root cfg) nm = PyVal.none
    ∧ get_config (set_config (NestedConfig.root cfg) nm (PyVal.bool false)) nm
        ≠ PyVal.none
    ∧ get_config (set_config (NestedConfig.root cfg) nm (PyVal.str "")) nm
        ≠ PyVal.none
    ∧ get_config (set_config (NestedConfig.root cfg) nm PyVal.none) nm
        = PyVal.none := by
  refine ⟨by simp [get_config, h], ?_, ?_,
    by simp [set_config, get_config, dict_lookup_set_self]⟩
  · simp [set_config, get_config, dict_lookup_set_self]
  · simp [set_config, get_config, dict_lookup_set_self]

/-- Witness for C8 amended on the empty node. -/
theorem unset_sentinel_amended_witness :
    get_config (NestedConfig.root []) "y" = PyVal.none
    ∧ get_config (set_config (NestedConfig.root []) "y" (PyVal.bool false)) "y"
        ≠ PyVal.none :=
  ⟨(unset_sentinel_amended [] "y" rfl).1,
   (unset_sentinel_amended [] "y" rfl).2.1⟩

/-- C9: add_config with override=true writes nothing (the node and hence
every get_config are unchanged, still falling through to the parent),
while override=false immediately stores the default locally on the node;
in both cases every other local entry is untouched. -/
theorem add_config_write_semantics (node : NestedConfig) (nm : String)
    (default : PyVal) :
    add_config node nm default true = node
    ∧ (∀ n, get_config (add_config node nm default true) n = get_config node n)
    ∧ dict_lookup (local_config (add_config node nm default false)) nm
        = Option.some default
    ∧ get_config (add_config node nm default false) nm = default
    ∧ (∀ n, n ≠ nm →
        dict_lookup (local_config (add_config node nm default false)) n
          = dict_lookup (local_config node) n) := by
  refine ⟨rfl, fun n => rfl, ?_, ?_, ?_⟩
  · show dict_lookup (local_config (set_config node nm default)) nm = _
    cases node <;> simp [set_config, local_config, dict_lookup_set_self]
  · show get_config (set_config node nm default) nm = default
    cases node <;> simp [set_config, get_config, dict_lookup_set_self]
  · intro n hn
    show dict_lookup (local_config (set_config node nm default)) n = _
    cases node <;>
      simp [set_config, local_config, dict_lookup_set_other _ _ _ _ hn]

/-- Witness for C9: an unrelated entry is unchanged by a default write. -/
theorem add_config_write_semantics_witness :
    dict_lookup
        (local_config
          (add_config (NestedConfig.root [("a", PyVal.int 1)]) "opt"
            (PyVal.str "d") false)) "a"
      = dict_lookup (local_config (NestedConfig.root [("a", PyVal.int 1)])) "a" :=
  (add_config_write_semantics (NestedConfig.root [("a", PyVal.int 1)]) "opt"
      (PyVal.str "d")).2.2.2.2 "a" (by decide)

/-- C10: entering the timer context-decorator records the start time and
exiting emits exactly one timer metric carrying the elapsed wall-clock
time converted to milliseconds, with the exception information ignored —
the same metric is emitted on the failure path. -/
theorem timer_cd_emits_elapsed_ms (nm : String) (t0 t1 : ℚ)
    (exc : Option String) :
    timer_exit (timer_enter nm t0) t1 exc = [(nm, (t1 - t0) * 1000)]
    ∧ (timer_exit (timer_enter nm t0) t1 exc).length = 1
    ∧ timer_exit (timer_enter nm t0) t1 exc
        = timer_exit (timer_enter nm t0) t1 Option.none :=
  ⟨rfl, rfl, rfl⟩

end Metricslogging
